import Mathlib

/-!
Shallow embedding of the option-chain analysis pipeline implemented in
`src/streamlit_app.py`, together with theorems settling the frozen claims
about it.

Modelling conventions:
* numeric CSV cell values are exact rationals; a missing cell (NaN in a raw
  column) is `none : Option ℚ`;
* IEEE special values produced by pandas/numpy arithmetic (NaN, ±inf) are
  modelled explicitly by `PyVal`;
* floats that can be irrational (Pearson correlations, which divide by a
  square root) live in `ℝ`, with `none : Option ℝ` standing for NaN;
* `Except.error` models an uncaught Python exception escaping the script.
-/

/-- A pandas/numpy float scalar: a finite value, a signed infinity, or NaN. -/
inductive PyVal where
  | fin : ℚ → PyVal
  | inf : PyVal
  | ninf : PyVal
  | nan : PyVal
deriving DecidableEq

/-- `Series.fillna(0)` at one cell: NaN becomes 0, everything else - including
±inf - is left unchanged. -/
def fillna0 : PyVal → PyVal
  | .nan => .fin 0
  | v => v

/-- Scalar multiplication by 100 (the `* 100` applied to the pct-return
column, src/streamlit_app.py line 63). -/
def pyMul100 : PyVal → PyVal
  | .fin q => .fin (q * 100)
  | .inf => .inf
  | .ninf => .ninf
  | .nan => .nan

/-- One row of the combined dataset restricted to the five base columns of the
side prefix (`CE_` or `PE_`) processed by one pass of the delta loop
(src/streamlit_app.py lines 45-66), plus the shared timestamp (as a sort
key).  `none` models a NaN cell, e.g. in rows coming from a file that lacks
this side's columns. -/
structure Row where
  ts : ℚ
  strike : Option ℚ
  vol : Option ℚ
  oi : Option ℚ
  price : Option ℚ
  iv : Option ℚ
deriving DecidableEq

/-- A row after `add_deltas`: the original columns (`base`, untouched) plus
the five new delta columns (lines 59-63).  The four diff-based columns are
plain rationals: `diff` yields NaN exactly where an operand is missing or
there is no previous row, and `.fillna(0)` then turns that NaN into 0, so no
NaN or infinity can remain in them. -/
structure RowD where
  base : Row
  volChange : ℚ
  oiChange : ℚ
  priceChange : ℚ
  ivChange : ℚ
  pctReturn : PyVal
deriving DecidableEq

/-- `g[c].diff().fillna(0)` at one row: current minus previous value, 0 when
either operand is missing (NaN) or there is no previous row. -/
def diffFill (prev cur : Option ℚ) : ℚ :=
  match prev with
  | none => 0
  | some p =>
      match cur with
      | none => 0
      | some c => c - p

/-- `g[price].pct_change()` at one row, i.e. `cur / prev - 1` elementwise:
dividing by a zero previous price follows IEEE semantics (`c / 0 = ±inf` for
`c ≠ 0` and `0 / 0 = NaN`), a missing operand or absent previous row gives
NaN.  (The deprecated pad-fill of inner NaNs is not applied.) -/
def pct_change (prev cur : Option ℚ) : PyVal :=
  match prev with
  | none => .nan
  | some p =>
      match cur with
      | none => .nan
      | some c =>
          if p = 0 then (if c = 0 then .nan else if c > 0 then .inf else .ninf)
          else .fin ((c - p) / p)

/-- The column assignments of `add_deltas` applied along an already sorted
group, carrying the previous row (`none` before the first row). -/
def deltaRows : Option Row → List Row → List RowD
  | _, [] => []
  | prev, r :: rs =>
      { base := r
        volChange := diffFill (prev.bind Row.vol) r.vol
        oiChange := diffFill (prev.bind Row.oi) r.oi
        priceChange := diffFill (prev.bind Row.price) r.price
        ivChange := diffFill (prev.bind Row.iv) r.iv
        pctReturn := pyMul100 (fillna0 (pct_change (prev.bind Row.price) r.price)) }
      :: deltaRows (some r) rs

/-- Insertion of one element into a list ordered by the strict order `lt`,
placing the new element before later elements with an equal key. -/
def insertBy (lt : α → α → Bool) (a : α) : List α → List α
  | [] => [a]
  | b :: l => if lt b a then b :: insertBy lt a l else a :: b :: l

/-- Comparison sort modelling `DataFrame.sort_values` (the relative order of
tied keys is irrelevant to every statement below). -/
def sortBy (lt : α → α → Bool) : List α → List α
  | [] => []
  | a :: l => insertBy lt a (sortBy lt l)

/-- Strict timestamp order on rows, the `sort_values("timestamp")` key. -/
def rowLt (a b : Row) : Bool := decide (a.ts < b.ts)

/-- `add_deltas` (src/streamlit_app.py lines 57-64): sort the strike group by
timestamp, then add the five delta columns. -/
def add_deltas (g : List Row) : List RowD :=
  deltaRows none (sortBy rowLt g)

/-- The group keys of `df.groupby(strike)`: the distinct non-missing strike
values, in ascending order (`groupby` sorts keys and silently drops rows
whose key is NaN). -/
def strikeKeys (rows : List Row) : List ℚ :=
  sortBy (fun a b => decide (a < b)) (rows.filterMap Row.strike).dedup

/-- One per-prefix pass of the delta loop (line 66):
`df.groupby(strike, group_keys=False).apply(add_deltas)` - the per-group
results are concatenated in group-key order. -/
def computeDeltas (rows : List Row) : List RowD :=
  (strikeKeys rows).flatMap fun k => add_deltas (rows.filter fun r => decide (r.strike = some k))

/-- The infinite-precision value of the `OI_imbalance` expression
(lines 70-72), with ε = 1e-9 taken exactly.  The program itself evaluates
the expression in float64; see `OI_imbalance_f`. -/
def OI_imbalance (ce pe : ℚ) : ℚ :=
  (ce - pe) / (ce + pe + 1 / 1000000000)

/-- `2 ^ z` over ℚ for an integer exponent, kept executable. -/
def pow2 (z : ℤ) : ℚ :=
  if 0 ≤ z then (2 : ℚ) ^ z.toNat else 1 / (2 : ℚ) ^ (-z).toNat

/-- Round a rational to the nearest integer, ties to the even neighbour
(the integer-granularity core of IEEE round-to-nearest-even). -/
def roundEven (x : ℚ) : ℤ :=
  if x - ⌊x⌋ < 1 / 2 then ⌊x⌋
  else if 1 / 2 < x - ⌊x⌋ then ⌊x⌋ + 1
  else if ⌊x⌋ % 2 = 0 then ⌊x⌋ else ⌊x⌋ + 1

/-- Round a rational to the nearest IEEE binary64 (float64) value: the
53-bit significand is obtained by scaling into `[2^52, 2^53)` and rounding
to nearest, ties to even.  Subnormals and overflow are not modelled; every
quantity considered below lies well inside the normal range. -/
def fl (q : ℚ) : ℚ :=
  if q = 0 then 0
  else
    (if q < 0 then -1 else 1) *
      (roundEven (|q| * pow2 (52 - Int.log 2 |q|)) : ℚ) * pow2 (Int.log 2 |q| - 52)

/-- The float64 evaluation of `OI_imbalance` as the program performs it
(lines 70-72): each of `-`, `+`, `+` and `/` rounds its exact result to the
nearest double, and the literal `1e-9` is itself the double nearest 1/10^9.
The inputs are column values, hence already doubles. -/
def OI_imbalance_f (ce pe : ℚ) : ℚ :=
  fl (fl (ce - pe) / fl (fl (ce + pe) + fl (1 / 1000000000)))

/-! ### Filename timestamp extraction (lines 22-27)

`parse_time` searches the filename for the regular expression
`_(\d{2})(\d{2})(\d{4})_(\d{2})(\d{2})(\d{2})` and formats the groups.
The searcher below mirrors `re.search`: it tries every start position from
the left and at each position matches the pattern literally (an underscore,
exactly eight digits, an underscore, exactly six digits).  Digits are the
ASCII digits recognised by `Char.isDigit`. -/

/-- Consume exactly `n` digit characters, returning them and the remainder. -/
def grabDigits : Nat → List Char → Option (List Char × List Char)
  | 0, cs => some ([], cs)
  | _ + 1, [] => none
  | n + 1, c :: cs =>
      if c.isDigit then (grabDigits n cs).map fun p => (c :: p.1, p.2)
      else none

/-- Match the pattern at the current position: `_`, eight digits, `_`, six
digits; on success return the date digits and the time digits. -/
def matchAt (cs : List Char) : Option (List Char × List Char) :=
  match cs with
  | [] => none
  | c :: rest =>
      if c = '_' then
        match grabDigits 8 rest with
        | none => none
        | some (d8, rest2) =>
            match rest2 with
            | [] => none
            | c2 :: rest3 =>
                if c2 = '_' then
                  match grabDigits 6 rest3 with
                  | none => none
                  | some (t6, _) => some (d8, t6)
                else none
      else none

/-- Left-to-right scan of `re.search`: first position where the pattern
matches wins. -/
def searchPat : List Char → Option (List Char × List Char)
  | [] => none
  | c :: cs =>
      match matchAt (c :: cs) with
      | some r => some r
      | none => searchPat cs

/-- `parse_time` (lines 22-27): on a match, return the pair
(`"DD-MM-YYYY HH:MM:SS"`, `"HHMM"`); otherwise the null pair, modelled as
`none`. -/
def parse_time (name : String) : Option (String × String) :=
  match searchPat name.data with
  | none => none
  | some (d8, t6) =>
      some (String.mk (d8.take 2 ++ '-' :: (d8.drop 2).take 2 ++ '-' :: d8.drop 4
              ++ ' ' :: t6.take 2 ++ ':' :: (t6.drop 2).take 2 ++ ':' :: t6.drop 4),
            String.mk (t6.take 2 ++ (t6.drop 2).take 2))

/-! ### The upload loop and concatenation (lines 29-40) -/

/-- An uploaded file: its name and, if `pd.read_csv` succeeds, its rows (the
row payload is opaque to the loader).  `none` models an empty or unreadable
file, on which `pd.read_csv` raises. -/
structure UFile where
  name : String
  rows : Option (List ℚ)

/-- A loaded row: the payload plus the attached `timestamp` and `time_label`
columns (lines 33-34); `none` is a null cell from a failed filename parse. -/
structure LRow where
  payload : ℚ
  timestamp : Option String
  time_label : Option String
deriving DecidableEq

/-- Number of days in a month, as validated by `pd.to_datetime`. -/
def daysInMonth (y mo : Nat) : Nat :=
  if mo = 2 then (if (y % 4 = 0 ∧ y % 100 ≠ 0) ∨ y % 400 = 0 then 29 else 28)
  else if mo = 4 ∨ mo = 6 ∨ mo = 9 ∨ mo = 11 then 30 else 31

/-- Numeric value of an ASCII digit character. -/
def digitVal (c : Char) : Nat := c.toNat - '0'.toNat

/-- `pd.to_datetime(s, format="%d-%m-%Y %H:%M:%S", errors="coerce")`,
modelled as a total order key: `none` is NaT (shape or range mismatch), and
on success a single natural number whose order agrees with date-time order. -/
def parseTs (s : String) : Option Nat :=
  match s.data with
  | [d1, d2, '-', m1, m2, '-', y1, y2, y3, y4, ' ', h1, h2, ':', n1, n2, ':', s1, s2] =>
      if [d1, d2, m1, m2, y1, y2, y3, y4, h1, h2, n1, n2, s1, s2].all Char.isDigit then
        let d := 10 * digitVal d1 + digitVal d2
        let mo := 10 * digitVal m1 + digitVal m2
        let y := 1000 * digitVal y1 + 100 * digitVal y2 + 10 * digitVal y3 + digitVal y4
        let h := 10 * digitVal h1 + digitVal h2
        let mi := 10 * digitVal n1 + digitVal n2
        let se := 10 * digitVal s1 + digitVal s2
        if 1 ≤ mo ∧ mo ≤ 12 ∧ 1 ≤ d ∧ d ≤ daysInMonth y mo ∧ h < 24 ∧ mi < 60 ∧ se < 60 then
          some (((((y * 12 + mo) * 31 + d) * 24 + h) * 60 + mi) * 60 + se)
        else none
      else none
  | _ => none

/-- Sort key order for `df.sort_values("timestamp")` after `to_datetime`:
valid timestamps ascending, NaT values last (`na_position="last"`). -/
def lrowLt (a b : LRow) : Bool :=
  match a.timestamp.bind parseTs, b.timestamp.bind parseTs with
  | some x, some y => decide (x < y)
  | some _, none => true
  | none, _ => false

/-- The upload loop (lines 29-35) followed by `pd.concat` (line 37): reading
aborts with an uncaught `EmptyDataError` exception at the first empty or
unreadable file; otherwise the per-file frames - each row tagged with the
file's `parse_time` results - are concatenated in upload order. -/
def readFrames : List UFile → Except String (List LRow)
  | [] => .ok []
  | f :: fs =>
      match f.rows with
      | none => .error "pandas.errors.EmptyDataError"
      | some rs =>
          match readFrames fs with
          | .error e => .error e
          | .ok rest =>
              .ok ((rs.map fun p =>
                { payload := p
                  timestamp := (parse_time f.name).map Prod.fst
                  time_label := (parse_time f.name).map Prod.snd }) ++ rest)

/-- The whole loading stage (lines 29-40): read and concatenate, drop the
rows whose `timestamp` cell is null (line 38), convert and sort by timestamp
(lines 39-40).  `Except.error` is an uncaught exception; note that no
explicit error value is ever produced for an empty result. -/
def loadFiles (files : List UFile) : Except String (List LRow) :=
  match readFrames files with
  | .error e => .error e
  | .ok all => .ok (sortBy lrowLt (all.filter fun r => r.timestamp.isSome))

/-! ### Pearson correlation (`Series.corr`, used by Panels C and D)

`x.corr(y)` over complete series (the delta columns are NaN-free after
`fillna(0)`) is NaN - modelled as `none` - when fewer than two points exist
or either series has zero variance, and otherwise equals
Σ(xᵢ-x̄)(yᵢ-ȳ) / √(Σ(xᵢ-x̄)² · Σ(yᵢ-ȳ)²).  The means and the (unnormalised)
variances are rational, so definedness is decidable; only the final value
needs `ℝ`. -/
noncomputable def pearson (ps : List (ℚ × ℚ)) : Option ℝ :=
  if ps.length < 2 then none
  else
    let n : ℚ := ps.length
    let mx : ℚ := (ps.map Prod.fst).sum / n
    let my : ℚ := (ps.map Prod.snd).sum / n
    let vx : ℚ := (ps.map fun p => (p.1 - mx) ^ 2).sum
    let vy : ℚ := (ps.map fun p => (p.2 - my) ^ 2).sum
    if vx = 0 ∨ vy = 0 then none
    else some ((((ps.map fun p => (p.1 - mx) * (p.2 - my)).sum : ℚ) : ℝ)
        / (Real.sqrt (vx : ℝ) * Real.sqrt (vy : ℝ)))

/-! ### Panel C - intra-side delta correlations (lines 172-193) -/

/-- A row of the delta-augmented dataset as read by `summarize_side` for one
side prefix: the side's strike and its four delta-metric columns.  The
metric columns are NaN-free (see `RowD`), so the `dropna` on them keeps
every row. -/
structure CRow where
  strike : Option ℚ
  priceChange : ℚ
  volChange : ℚ
  oiChange : ℚ
  ivChange : ℚ
deriving DecidableEq

/-- Column lookup by metric name. -/
def metricVal (r : CRow) : String → ℚ
  | "priceChange" => r.priceChange
  | "volChange" => r.volChange
  | "oiChange" => r.oiChange
  | "ivChange" => r.ivChange
  | _ => 0

/-- The `pairs` dict of `summarize_side` (lines 180-184): display name and the
two metric columns of each correlation the panel computes, in insertion
order. -/
def panelC_pairs : List (String × String × String) :=
  [("ΔPrice vs ΔVolume", "priceChange", "volChange"),
   ("ΔPrice vs ΔOI", "priceChange", "oiChange"),
   ("ΔPrice vs ΔIV", "priceChange", "ivChange")]

/-- One reported relation: the pair it concerns and the classification words
interpolated into the displayed sentence (line 191). -/
structure RelLine where
  pairName : String
  a : String
  b : String
  direction : String
  strength : String
deriving DecidableEq

/-- `df_range[df_range[strikePrice] == strike]` (line 176): rows of the
selected strike; a NaN strike never equals the selected value. -/
def panelC_d (rows : List CRow) (strike : ℚ) : List CRow :=
  rows.filter fun r => decide (r.strike = some strike)

/-- One iteration of the `summarize_side` loop (lines 185-192): compute the
pair's correlation over the strike's rows `d` and, when it is not NaN
(`pd.notna`), classify its direction and strength. -/
noncomputable def panelC_rel (d : List CRow) (pr : String × String × String) : Option RelLine :=
  match pearson (d.map fun r => (metricVal r pr.2.1, metricVal r pr.2.2)) with
  | none => none
  | some v =>
      some { pairName := pr.1, a := pr.2.1, b := pr.2.2
             direction := if 0 < v then "positively" else "negatively"
             strength := if 0.7 ≤ |v| then "strongly"
               else if 0.4 ≤ |v| then "moderately" else "weakly" }

/-- `summarize_side` (lines 172-193): for each of the three pairs, compute
the correlation over the strike's rows and report it whenever defined. -/
noncomputable def summarize_side (rows : List CRow) (strike : ℚ) : List RelLine :=
  if (panelC_d rows strike).isEmpty then []
  else panelC_pairs.filterMap (panelC_rel (panelC_d rows strike))

/-- The four delta metrics of the correlation data model. -/
def fourMetrics : List String := ["priceChange", "volChange", "oiChange", "ivChange"]

/-- Whether Panel C computes a correlation for the unordered metric pair
`{a, b}`. -/
def pairCovered (a b : String) : Bool :=
  panelC_pairs.any fun pr => decide ((pr.2.1 = a ∧ pr.2.2 = b) ∨ (pr.2.1 = b ∧ pr.2.2 = a))

/-! ### Panel D - composite strength score and bias (lines 212-237) -/

/-- A row of the delta-augmented dataset as read by the Panel D loop for one
side prefix: the side's strike, the three delta columns entering the score,
and the row's `OI_imbalance` cell. -/
structure DRow where
  strike : Option ℚ
  priceChange : ℚ
  oiChange : ℚ
  volChange : ℚ
  oiImb : Option ℚ
deriving DecidableEq

/-- Python `x or 0` on a float: only `0.0` is falsy; every other float -
including NaN - is truthy and returned unchanged, so NaN passes through. -/
noncomputable def pyOr0 : Option ℝ → Option ℝ
  | none => none
  | some x => if x = 0 then some 0 else some x

/-- `Series.mean()` with the default `skipna=True`, applied to the non-null
values: NaN (`none`) when no value remains. -/
def pdMean (l : List ℚ) : Option ℚ :=
  if l.isEmpty then none else some (l.sum / l.length)

/-- `d = df[df[strikePrice] == strike]` in the Panel D loop (line 221). -/
def panelD_d (rows : List DRow) (strike : ℚ) : List DRow :=
  rows.filter fun r => decide (r.strike = some strike)

/-- The per-side score of the Panel D loop (lines 218-229).  Outer `none`:
the side is skipped for this strike (`continue`, so the result row has no
key for it); inner `none`: the stored score is NaN.  NaN arithmetic
propagates: the weighted sum is NaN as soon as one term is. -/
noncomputable def sideStrength (hasOiImb : Bool) (rows : List DRow) (strike : ℚ) : Option (Option ℝ) :=
  if (panelD_d rows strike).isEmpty then none
  else
    some (match
        pyOr0 (pearson ((panelD_d rows strike).map fun r => (r.priceChange, r.oiChange))),
        pyOr0 (pearson ((panelD_d rows strike).map fun r => (r.priceChange, r.volChange))),
        (if hasOiImb then (pdMean ((panelD_d rows strike).filterMap DRow.oiImb)).map (fun q => (q : ℝ))
         else some 0) with
      | some a, some b, some c => some (0.4 * a + 0.3 * b + 0.3 * c)
      | _, _, _ => none)

/-- Python `>` on floats where `none` is NaN: every comparison with NaN is
false. -/
noncomputable def pyGT : Option ℝ → Option ℝ → Bool
  | some a, some b => decide (b < a)
  | _, _ => false

/-- The Bias lambda (lines 234-237): `r.get(key, 0)` defaults a missing key
to 0, and the `if ... > ... else "Bear"` shape makes "Bear" the default
whenever the comparison is false (including against NaN). -/
noncomputable def biasLabel (ce pe : Option (Option ℝ)) : String :=
  if pyGT (ce.getD (some 0)) (pe.getD (some 0)) then "Bull" else "Bear"

/-- The Bias of one strike's result row: each side contributes a score key
only if its delta columns exist (`ceCols`/`peCols`, line 219) and it has rows
at the strike. -/
noncomputable def strengthBias (ceCols peCols hasOiImb : Bool)
    (ceRows peRows : List DRow) (strike : ℚ) : String :=
  biasLabel (if ceCols then sideStrength hasOiImb ceRows strike else none)
            (if peCols then sideStrength hasOiImb peRows strike else none)

/-! ### Concrete inputs used by witnesses and counterexamples -/

/-- A two-row strike group whose first price is 0: the `pct_change` divisor
for the second row is zero. -/
def zeroPriceGroup : List Row :=
  [{ ts := 1, strike := some 100, vol := some 10, oi := some 10, price := some 0, iv := some 1 },
   { ts := 2, strike := some 100, vol := some 20, oi := some 20, price := some 5, iv := some 1 }]

/-- A one-row group with arbitrary non-zero raw values. -/
def singletonGroup : List Row :=
  [{ ts := 1, strike := some 100, vol := some 7, oi := some 8, price := some 9, iv := some 2 }]

/-- A two-row group with volumes 100 and 150. -/
def volGroup : List Row :=
  [{ ts := 1, strike := some 19500, vol := some 100, oi := some 5, price := some 1, iv := some 1 },
   { ts := 2, strike := some 19500, vol := some 150, oi := some 6, price := some 2, iv := some 1 }]

/-- Two rows, one of which has a missing strike cell. -/
def rowsMixed : List Row :=
  [{ ts := 1, strike := none, vol := some 1, oi := some 1, price := some 1, iv := some 1 },
   { ts := 2, strike := some 100, vol := some 2, oi := some 2, price := some 2, iv := some 2 }]

/-- Two rows of two different strikes, all strike cells present. -/
def rowsFull : List Row :=
  [{ ts := 1, strike := some 200, vol := some 1, oi := some 1, price := some 1, iv := some 1 },
   { ts := 2, strike := some 100, vol := some 2, oi := some 2, price := some 2, iv := some 2 }]

/-- A Panel D dataset holding a single observation of strike 100. -/
def demoDRows : List DRow :=
  [{ strike := some 100, priceChange := 1, oiChange := 2, volChange := 3, oiImb := some 0 }]

/-- One readable uploaded file whose name contains no timestamp pattern. -/
def demoFiles : List UFile := [{ name := "snap.csv", rows := some [3] }]

/-! ## Theorems -/

/-! ### Generic list lemmas for the embedding -/

theorem insertBy_perm (lt : α → α → Bool) (a : α) :
    ∀ l : List α, (insertBy lt a l).Perm (a :: l) := by
  intro l
  induction l with
  | nil => exact List.Perm.refl _
  | cons b m ih =>
      by_cases h : lt b a
      · simpa [insertBy, h] using (ih.cons b).trans (List.Perm.swap a b m)
      · simp [insertBy, h]

theorem sortBy_perm (lt : α → α → Bool) : ∀ l : List α, (sortBy lt l).Perm l := by
  intro l
  induction l with
  | nil => exact List.Perm.refl _
  | cons a m ih => exact (insertBy_perm lt a (sortBy lt m)).trans (ih.cons a)

theorem deltaRows_map_base (p : Option Row) (s : List Row) :
    (deltaRows p s).map RowD.base = s := by
  induction s generalizing p with
  | nil => rfl
  | cons r rs ih => simp [deltaRows, ih]

theorem add_deltas_map_base (g : List Row) :
    ((add_deltas g).map RowD.base).Perm g :=
  (deltaRows_map_base none (sortBy rowLt g)) ▸ sortBy_perm rowLt g

theorem map_flatMap_eq (f : β → γ) (g : α → List β) :
    ∀ l : List α, (l.flatMap g).map f = l.flatMap fun a => (g a).map f := by
  intro l
  induction l with
  | nil => rfl
  | cons a m ih => simp [List.flatMap_cons, ih]

theorem flatMap_perm_congr (g1 g2 : α → List β) :
    ∀ l : List α, (∀ a ∈ l, (g1 a).Perm (g2 a)) → (l.flatMap g1).Perm (l.flatMap g2) := by
  intro l
  induction l with
  | nil => intro _; exact List.Perm.refl _
  | cons a m ih =>
      intro h
      simp only [List.flatMap_cons]
      exact (h a (by simp)).append (ih fun b hb => h b (by simp [hb]))

theorem count_filter_pos [DecidableEq α] (p : α → Bool) (a : α) (l : List α)
    (h : p a = true) : (l.filter p).count a = l.count a := by
  induction l with
  | nil => rfl
  | cons b m ih =>
      by_cases hb : p b
      · rw [List.filter_cons_of_pos hb, List.count_cons, List.count_cons, ih]
      · rw [List.filter_cons_of_neg hb, ih, List.count_cons]
        have : ¬ b = a := fun he => hb (he ▸ h)
        simp [this]

theorem count_filter_neg [DecidableEq α] (p : α → Bool) (a : α) (l : List α)
    (h : p a = false) : (l.filter p).count a = 0 := by
  rw [List.count_eq_zero]
  intro hmem
  have := (List.mem_filter.mp hmem).2
  rw [h] at this
  exact Bool.noConfusion this

theorem count_flatMap_key_none [DecidableEq α] [DecidableEq κ]
    (key : α → Option κ) (rows : List α) (a : α) (ha : key a = none) :
    ∀ keys : List κ,
      ((keys.flatMap fun k => rows.filter fun x => decide (key x = some k)).count a) = 0 := by
  intro keys
  induction keys with
  | nil => rfl
  | cons k ks ih =>
      rw [List.flatMap_cons, List.count_append, ih,
        count_filter_neg _ _ _ (by simp [ha])]

theorem count_flatMap_key_some [DecidableEq α] [DecidableEq κ]
    (key : α → Option κ) (rows : List α) (a : α) (q : κ) (ha : key a = some q) :
    ∀ keys : List κ, keys.Nodup →
      ((keys.flatMap fun k => rows.filter fun x => decide (key x = some k)).count a)
        = if q ∈ keys then rows.count a else 0 := by
  intro keys
  induction keys with
  | nil => intro _; rfl
  | cons k ks ih =>
      intro hnd
      rw [List.flatMap_cons, List.count_append, ih hnd.of_cons]
      by_cases hq : q = k
      · subst hq
        rw [count_filter_pos _ _ _ (by simp [ha])]
        have hnot : q ∉ ks := (List.nodup_cons.mp hnd).1
        simp [hnot]
      · rw [count_filter_neg _ _ _ (by simp [ha, hq])]
        by_cases hks : q ∈ ks <;> simp [hks, hq]

theorem strikeKeys_nodup (rows : List Row) : (strikeKeys rows).Nodup :=
  ((sortBy_perm _ _).nodup_iff).mpr (List.nodup_dedup _)

theorem strikeKeys_mem (rows : List Row) (r : Row) (hr : r ∈ rows) (q : ℚ)
    (hq : r.strike = some q) : q ∈ strikeKeys rows :=
  ((sortBy_perm _ _).mem_iff).mpr (List.mem_dedup.mpr (List.mem_filterMap.mpr ⟨r, hr, hq⟩))

theorem deltaRows_cons (prev : Option Row) (r : Row) (rs : List Row) :
    deltaRows prev (r :: rs) =
      { base := r
        volChange := diffFill (prev.bind Row.vol) r.vol
        oiChange := diffFill (prev.bind Row.oi) r.oi
        priceChange := diffFill (prev.bind Row.price) r.price
        ivChange := diffFill (prev.bind Row.iv) r.iv
        pctReturn := pyMul100 (fillna0 (pct_change (prev.bind Row.price) r.price)) }
      :: deltaRows (some r) rs := rfl

theorem deltaRows_vol_sum :
    ∀ (s : List Row) (x : Row) (p b : ℚ), x.vol = some p →
      (∀ r ∈ s, r.vol ≠ none) → s.getLast?.bind Row.vol = some b →
      ((deltaRows (some x) s).map RowD.volChange).sum = b - p := by
  intro s
  induction s with
  | nil => intro x p b _ _ hl; simp at hl
  | cons r rs ih =>
      intro x p b hx hv hl
      rcases hrv : r.vol with _ | c
      · exact absurd hrv (hv r (by simp))
      rcases hxs : rs with _ | ⟨y, ys⟩
      · subst hxs
        simp only [List.getLast?_singleton, Option.some_bind, hrv, Option.some.injEq] at hl
        subst hl
        rw [deltaRows_cons]
        simp [diffFill, deltaRows, hx, hrv]
      · subst hxs
        rw [List.getLast?_cons_cons] at hl
        have hs := ih r c b hrv (fun t ht => hv t (List.mem_cons_of_mem _ ht)) hl
        rw [deltaRows_cons]
        simp only [List.map_cons, List.sum_cons, hs]
        simp [diffFill, hx, hrv]

/-! ### Claims C7, C8 - delta-engine invariants -/

/-- Claim C7: after `add_deltas` the first row (in timestamp order) of every
non-empty strike group has volChange, oiChange, priceChange, ivChange and
pctReturn all exactly 0, regardless of the group's raw values; in particular
a single-observation strike yields the all-zero delta row. -/
theorem claim_C7 (g : List Row) (h : g ≠ []) :
    ∃ d rest, add_deltas g = d :: rest ∧
      d.volChange = 0 ∧ d.oiChange = 0 ∧ d.priceChange = 0 ∧ d.ivChange = 0 ∧
      d.pctReturn = PyVal.fin 0 := by
  rcases hs : sortBy rowLt g with _ | ⟨x, xs⟩
  · have hp := sortBy_perm rowLt g
    rw [hs] at hp
    exact absurd hp.symm.eq_nil h
  · have he : add_deltas g = deltaRows none (x :: xs) := by unfold add_deltas; rw [hs]
    rw [deltaRows_cons] at he
    refine ⟨_, _, he, rfl, rfl, rfl, rfl, ?_⟩
    simp [diffFill, pct_change, fillna0, pyMul100]

/-- Witness for C7 at a concrete one-row group with non-zero raw values. -/
theorem claim_C7_witness :
    singletonGroup ≠ [] ∧
      ∃ d rest, add_deltas singletonGroup = d :: rest ∧
        d.volChange = 0 ∧ d.oiChange = 0 ∧ d.priceChange = 0 ∧ d.ivChange = 0 ∧
        d.pctReturn = PyVal.fin 0 :=
  ⟨by decide, claim_C7 singletonGroup (by decide)⟩

/-- Claim C8: over any non-empty strike group with no missing volume values,
the per-row volChange values sum to the last row's volume minus the first
row's volume, first/last taken in timestamp order (the order of the
`add_deltas` output). -/
theorem claim_C8 (g : List Row) (h : g ≠ []) (hv : ∀ r ∈ g, r.vol ≠ none) :
    ∃ dfirst dlast a b,
      (add_deltas g).head? = some dfirst ∧ (add_deltas g).getLast? = some dlast ∧
      dfirst.base.vol = some a ∧ dlast.base.vol = some b ∧
      ((add_deltas g).map RowD.volChange).sum = b - a := by
  rcases hs : sortBy rowLt g with _ | ⟨x, xs⟩
  · have hp := sortBy_perm rowLt g
    rw [hs] at hp
    exact absurd hp.symm.eq_nil h
  have hmem : ∀ r ∈ x :: xs, r.vol ≠ none := by
    intro r hr
    have hp := sortBy_perm rowLt g
    rw [hs] at hp
    exact hv r (hp.subset hr)
  rcases hxv : x.vol with _ | a
  · exact absurd hxv (hmem x (by simp))
  have hadd : add_deltas g = deltaRows none (x :: xs) := by unfold add_deltas; rw [hs]
  have hD0 : deltaRows none (x :: xs)
      = (⟨x, 0, 0, 0, 0, PyVal.fin 0⟩ : RowD) :: deltaRows (some x) xs := by
    rw [deltaRows_cons]
    simp [diffFill, pct_change, fillna0, pyMul100]
  rcases hxs : xs with _ | ⟨y, ys⟩
  · subst hxs
    rw [hD0] at hadd
    refine ⟨⟨x, 0, 0, 0, 0, PyVal.fin 0⟩, ⟨x, 0, 0, 0, 0, PyVal.fin 0⟩, a, a,
      ?_, ?_, hxv, hxv, ?_⟩
    · rw [hadd]; rfl
    · rw [hadd]; rfl
    · rw [hadd]
      simp [deltaRows]
  · subst hxs
    have hrl : (y :: ys).getLast? = some ((y :: ys).getLast (by simp)) :=
      List.getLast?_eq_getLast _ _
    rcases hrlv : ((y :: ys).getLast (by simp)).vol with _ | b
    · exact absurd hrlv (hmem _ (List.mem_cons_of_mem _ (List.getLast_mem _)))
    have hbind : (y :: ys).getLast?.bind Row.vol = some b := by
      rw [hrl, Option.some_bind, hrlv]
    have hsum := deltaRows_vol_sum (y :: ys) x a b hxv
      (fun t ht => hmem t (List.mem_cons_of_mem _ ht)) hbind
    have hmap := deltaRows_map_base (some x) (y :: ys)
    have hml : ((deltaRows (some x) (y :: ys)).map RowD.base).getLast?
        = some ((y :: ys).getLast (by simp)) := by rw [hmap, hrl]
    rw [List.getLast?_map] at hml
    obtain ⟨dlast, hdl, hdb⟩ := Option.map_eq_some'.mp hml
    rw [hD0] at hadd
    refine ⟨⟨x, 0, 0, 0, 0, PyVal.fin 0⟩, dlast, a, b, ?_, ?_, hxv, ?_, ?_⟩
    · rw [hadd]; rfl
    · rw [hadd, deltaRows_cons, List.getLast?_cons_cons, ← deltaRows_cons]
      exact hdl
    · rw [hdb, hrlv]
    · rw [hadd]
      simp only [List.map_cons, List.sum_cons, hsum]
      simp

/-- Witness for C8 at a concrete two-row group with volumes 100 and 150. -/
theorem claim_C8_witness :
    (volGroup ≠ [] ∧ ∀ r ∈ volGroup, r.vol ≠ none) ∧
      ∃ dfirst dlast a b,
        (add_deltas volGroup).head? = some dfirst ∧
        (add_deltas volGroup).getLast? = some dlast ∧
        dfirst.base.vol = some a ∧ dlast.base.vol = some b ∧
        ((add_deltas volGroup).map RowD.volChange).sum = b - a :=
  ⟨⟨by decide, by decide⟩, claim_C8 volGroup (by decide) (by decide)⟩

/-! ### Claim C9 - OI imbalance bounds, exact value versus float64 -/

theorem pow2_eq_zpow (z : ℤ) : pow2 z = (2 : ℚ) ^ z := by
  rcases z with n | n
  · simp [pow2]
  · rw [pow2, if_neg (by simp), zpow_negSucc, Int.neg_negSucc]
    simp [one_div]

theorem int_log_eq (r : ℚ) (e : ℤ) (hr : 0 < r)
    (h1 : pow2 e ≤ r) (h2 : r < pow2 (e + 1)) : Int.log 2 r = e := by
  rw [pow2_eq_zpow] at h1 h2
  have hcast : ((2 : ℕ) : ℚ) = 2 := by norm_num
  have ha := (Int.zpow_le_iff_le_log (b := 2) (by norm_num) hr).mp (by rw [hcast]; exact h1)
  have hb := (Int.lt_zpow_iff_log_lt (b := 2) (by norm_num) hr).mp (by rw [hcast]; exact h2)
  omega

theorem roundEven_eq_down (x : ℚ) (n : ℤ) (h1 : ⌊x⌋ = n) (h2 : x - n < 1 / 2) :
    roundEven x = n := by
  rw [roundEven, h1, if_pos h2]

theorem roundEven_eq_up (x : ℚ) (n : ℤ) (h1 : ⌊x⌋ = n) (h2 : 1 / 2 < x - n) :
    roundEven x = n + 1 := by
  rw [roundEven, h1, if_neg (by linarith), if_pos h2]

theorem fl_zero : fl 0 = 0 := by
  rw [fl, if_pos rfl]

theorem fl_pos_eq (q : ℚ) (e m : ℤ) (hq : 0 < q) (hlog : Int.log 2 q = e)
    (hm : roundEven (q * pow2 (52 - e)) = m) :
    fl q = (m : ℚ) * pow2 (e - 52) := by
  rw [fl, if_neg hq.ne', if_neg (not_lt.mpr hq.le), abs_of_pos hq, hlog, hm, one_mul]

/-- The double literal `1e-9`: the nearest binary64 to 1/10^9 is
4835703278458517 × 2^-82 (the scaled value 2^82/10^9 has fractional part
0.6988..., so it rounds up). -/
theorem fl_eps : fl (1 / 1000000000) = 4835703278458517 * pow2 (-82) := by
  have hq : (0 : ℚ) < 1 / 1000000000 := by norm_num
  have hlog : Int.log 2 (1 / 1000000000 : ℚ) = -30 :=
    int_log_eq _ _ hq (by norm_num [pow2, Int.toNat]) (by norm_num [pow2, Int.toNat])
  have harg : (1 / 1000000000 : ℚ) * pow2 (52 - (-30))
      = 4835703278458516698824704 / 1000000000 := by
    norm_num [pow2, Int.toNat]
  have hfloor : ⌊(4835703278458516698824704 : ℚ) / 1000000000⌋ = 4835703278458516 := by
    rw [Int.floor_eq_iff]
    constructor <;> norm_num
  have hup := roundEven_eq_up ((4835703278458516698824704 : ℚ) / 1000000000)
    4835703278458516 hfloor (by norm_num)
  have hm : roundEven ((1 / 1000000000 : ℚ) * pow2 (52 - (-30))) = 4835703278458517 := by
    rw [harg, hup]
    norm_num
  rw [fl_pos_eq (1 / 1000000000) (-30) 4835703278458517 hq hlog hm]
  norm_num

/-- 2^24 is exactly representable, so it rounds to itself. -/
theorem fl_pow24 : fl (16777216 : ℚ) = 16777216 := by
  have hq : (0 : ℚ) < 16777216 := by norm_num
  have hlog : Int.log 2 (16777216 : ℚ) = 24 :=
    int_log_eq _ _ hq (by norm_num [pow2, Int.toNat]) (by norm_num [pow2, Int.toNat])
  have harg : (16777216 : ℚ) * pow2 (52 - 24) = 4503599627370496 := by
    norm_num [pow2, Int.toNat]
  have hm : roundEven ((16777216 : ℚ) * pow2 (52 - 24)) = 4503599627370496 := by
    rw [harg]
    exact roundEven_eq_down _ 4503599627370496 (by norm_num) (by norm_num)
  rw [fl_pos_eq (16777216 : ℚ) 24 4503599627370496 hq hlog hm]
  norm_num [pow2, Int.toNat]

/-- The decisive rounding step: 1e-9 is below half an ulp of 2^24
(2^-29 ≈ 1.86e-9), so adding the rounded epsilon to 2^24 rounds back down
to exactly 2^24. -/
theorem fl_sum : fl (16777216 + 4835703278458517 * pow2 (-82)) = 16777216 := by
  have hq : (0 : ℚ) < 16777216 + 4835703278458517 * pow2 (-82) := by
    norm_num [pow2, Int.toNat]
  have hlog : Int.log 2 (16777216 + 4835703278458517 * pow2 (-82) : ℚ) = 24 :=
    int_log_eq _ _ hq (by norm_num [pow2, Int.toNat]) (by norm_num [pow2, Int.toNat])
  have harg : (16777216 + 4835703278458517 * pow2 (-82) : ℚ) * pow2 (52 - 24)
      = 4503599627370496 + 4835703278458517 / 18014398509481984 := by
    norm_num [pow2, Int.toNat]
  have hfloor : ⌊(4503599627370496 : ℚ) + 4835703278458517 / 18014398509481984⌋
      = 4503599627370496 := by
    rw [Int.floor_eq_iff]
    constructor <;> norm_num
  have hm : roundEven ((16777216 + 4835703278458517 * pow2 (-82) : ℚ) * pow2 (52 - 24))
      = 4503599627370496 := by
    rw [harg]
    exact roundEven_eq_down _ 4503599627370496 hfloor (by norm_num)
  rw [fl_pos_eq _ 24 4503599627370496 hq hlog hm]
  norm_num [pow2, Int.toNat]

/-- 1 is exactly representable, so it rounds to itself. -/
theorem fl_one : fl (1 : ℚ) = 1 := by
  have hq : (0 : ℚ) < 1 := by norm_num
  have hlog : Int.log 2 (1 : ℚ) = 0 := Int.log_one_right 2
  have harg : (1 : ℚ) * pow2 (52 - 0) = 4503599627370496 := by
    norm_num [pow2, Int.toNat]
  have hm : roundEven ((1 : ℚ) * pow2 (52 - 0)) = 4503599627370496 := by
    rw [harg]
    exact roundEven_eq_down _ 4503599627370496 (by norm_num) (by norm_num)
  rw [fl_pos_eq (1 : ℚ) 0 4503599627370496 hq hlog hm]
  norm_num [pow2, Int.toNat]

/-- Claim C9 (counterexample): at CE_openInterest = 2^24 and
PE_openInterest = 0, the program's float64 evaluation of OI_imbalance is
exactly 1.0: the 1e-9 epsilon is below half an ulp of the denominator, the
sum rounds to 2^24, and 2^24 / 2^24 = 1 - so the value does not lie
strictly inside (-1, 1) as claimed. -/
theorem claim_C9_counterexample :
    OI_imbalance_f 16777216 0 = 1 ∧ ¬ OI_imbalance_f 16777216 0 < 1 := by
  have he : OI_imbalance_f 16777216 0 = 1 := by
    rw [OI_imbalance_f,
      show (16777216 : ℚ) - 0 = 16777216 by norm_num,
      show (16777216 : ℚ) + 0 = 16777216 by norm_num,
      fl_pow24, fl_eps, fl_sum,
      show (16777216 : ℚ) / 16777216 = 1 by norm_num,
      fl_one]
  exact ⟨he, by rw [he]; exact lt_irrefl 1⟩

/-- Claim C9 (amended): OI_imbalance equals exactly 0 whenever the two
sides are equal - also under the program's float64 arithmetic, where the
numerator rounds to exactly 0 and 0 divided by anything is 0 - and the
infinite-precision value of the expression lies strictly between -1 and 1
for any non-negative inputs.  The strict bound does not survive the
program's float64 evaluation: for large one-sided open interest the 1e-9
epsilon falls below half an ulp of the denominator and the result is
exactly ±1 (see the counterexample at CE = 2^24, PE = 0). -/
theorem claim_C9 (ce pe : ℚ) (hce : 0 ≤ ce) (hpe : 0 ≤ pe) :
    (ce = pe → OI_imbalance_f ce pe = 0) ∧
      ((-1 < OI_imbalance ce pe ∧ OI_imbalance ce pe < 1) ∧
        (ce = pe → OI_imbalance ce pe = 0)) := by
  have heps : (0 : ℚ) < 1 / 1000000000 := by norm_num
  have hd : 0 < ce + pe + 1 / 1000000000 := by linarith
  refine ⟨?_, ⟨?_, ?_⟩, ?_⟩
  · intro h
    rw [OI_imbalance_f, h, sub_self, fl_zero, zero_div, fl_zero]
  · rw [OI_imbalance, lt_div_iff₀ hd]
    linarith
  · rw [OI_imbalance, div_lt_one hd]
    linarith
  · intro h
    rw [OI_imbalance, h, sub_self, zero_div]

/-- Witness for C9 at the equal non-negative inputs 3 and 3. -/
theorem claim_C9_witness :
    ((0 : ℚ) ≤ 3 ∧ (0 : ℚ) ≤ 3) ∧
      (((3 : ℚ) = 3 → OI_imbalance_f 3 3 = 0) ∧
        ((-1 < OI_imbalance 3 3 ∧ OI_imbalance 3 3 < 1) ∧
          ((3 : ℚ) = 3 → OI_imbalance 3 3 = 0))) :=
  ⟨⟨by norm_num, by norm_num⟩, claim_C9 3 3 (by norm_num) (by norm_num)⟩

/-! ### Claim C3 - the pct-return zero-division guard fails on +inf -/

/-- Claim C3 (code bug, failing input): in a group whose previous price is 0
and current price is 5, `pct_change` divides by zero and produces +inf,
which `fillna(0)` - a NaN-only guard - does not replace: the second row's
pctReturn is +inf, not 0. -/
theorem claim_C3 :
    (add_deltas zeroPriceGroup).map RowD.pctReturn = [PyVal.fin 0, PyVal.inf] := by
  norm_num [zeroPriceGroup, add_deltas, sortBy, insertBy, rowLt, deltaRows,
    pct_change, fillna0, pyMul100]

/-! ### Claim C1 - filename parsing accepts only the underscore-separated form -/

theorem grabDigits_append (ds tail : List Char) (hds : ∀ c ∈ ds, c.isDigit = true) :
    grabDigits ds.length (ds ++ tail) = some (ds, tail) := by
  induction ds with
  | nil => rfl
  | cons c cs ih =>
      have hc := hds c (by simp)
      have ih2 := ih fun d hd => hds d (by simp [hd])
      show (if c.isDigit then (grabDigits cs.length (cs ++ tail)).map fun p => (c :: p.1, p.2)
            else none) = some (c :: cs, tail)
      rw [hc, if_pos rfl, ih2]
      rfl

theorem matchAt_pat (d8 t6 rest : List Char)
    (h8 : d8.length = 8) (h6 : t6.length = 6)
    (hd8 : ∀ c ∈ d8, c.isDigit = true) (ht6 : ∀ c ∈ t6, c.isDigit = true) :
    matchAt ('_' :: (d8 ++ '_' :: (t6 ++ rest))) = some (d8, t6) := by
  have g8 := grabDigits_append d8 ('_' :: (t6 ++ rest)) hd8
  have g6 := grabDigits_append t6 rest ht6
  rw [h8] at g8
  rw [h6] at g6
  simp [matchAt, g8, g6]

theorem matchAt_not_underscore (c : Char) (l : List Char) (hc : ¬ c = '_') :
    matchAt (c :: l) = none := by
  simp [matchAt, hc]

theorem searchPat_cons (c : Char) (l : List Char) (h : matchAt (c :: l) = none) :
    searchPat (c :: l) = searchPat l := by
  simp [searchPat, h]

theorem searchPat_found (d8 t6 : List Char)
    (h8 : d8.length = 8) (h6 : t6.length = 6)
    (hd8 : ∀ c ∈ d8, c.isDigit = true) (ht6 : ∀ c ∈ t6, c.isDigit = true)
    (rest : List Char) :
    ∀ pre : List Char, '_' ∉ pre →
      searchPat (pre ++ '_' :: (d8 ++ '_' :: (t6 ++ rest))) = some (d8, t6) := by
  intro pre
  induction pre with
  | nil =>
      intro _
      simp only [List.nil_append, searchPat, matchAt_pat d8 t6 rest h8 h6 hd8 ht6]
  | cons c cs ih =>
      intro hnp
      have hc : ¬ c = '_' := fun he => hnp (by simp [he])
      rw [List.cons_append, searchPat_cons c _ (matchAt_not_underscore c _ hc)]
      exact ih fun h => hnp (by simp [h])

/-- Claim C1 (amended): the accepted form is underscore-separated only.  For
any filename of the shape `<pre>_DDMMYYYY_HHMMSS<rest>` - an underscore, the
eight contiguous date digits, an underscore, the six contiguous time digits,
with no underscore earlier in the name - `parse_time` returns the non-null
pair (`"DD-MM-YYYY HH:MM:SS"`, `"HHMM"`) built from those digits.  Note the
digit run is 8+6 = 14 digits, not 12, and a contiguous run without the inner
underscore is rejected (see the counterexample). -/
theorem claim_C1 (pre rest : List Char)
    (d1 d2 m1 m2 y1 y2 y3 y4 h1 h2 n1 n2 s1 s2 : Char)
    (hpre : '_' ∉ pre)
    (hdig : ∀ c ∈ [d1, d2, m1, m2, y1, y2, y3, y4, h1, h2, n1, n2, s1, s2], c.isDigit = true) :
    parse_time (String.mk (pre ++ '_' :: ([d1, d2, m1, m2, y1, y2, y3, y4]
        ++ '_' :: ([h1, h2, n1, n2, s1, s2] ++ rest))))
      = some (String.mk [d1, d2, '-', m1, m2, '-', y1, y2, y3, y4, ' ',
                h1, h2, ':', n1, n2, ':', s1, s2],
              String.mk [h1, h2, n1, n2]) := by
  have hs := searchPat_found [d1, d2, m1, m2, y1, y2, y3, y4] [h1, h2, n1, n2, s1, s2]
    rfl rfl (fun c hc => hdig c (by simp at hc ⊢; tauto))
    (fun c hc => hdig c (by simp at hc ⊢; tauto)) rest pre hpre
  simp only [List.cons_append, List.nil_append] at hs
  simp [parse_time, hs]

/-- Witness for C1 at the concrete filename `chain_01012024_093045.csv`. -/
theorem claim_C1_witness :
    parse_time (String.mk ("chain".data ++ '_' :: (['0', '1', '0', '1', '2', '0', '2', '4']
        ++ '_' :: (['0', '9', '3', '0', '4', '5'] ++ ".csv".data))))
      = some (String.mk ['0', '1', '-', '0', '1', '-', '2', '0', '2', '4', ' ',
                '0', '9', ':', '3', '0', ':', '4', '5'],
              String.mk ['0', '9', '3', '0']) :=
  claim_C1 "chain".data ".csv".data '0' '1' '0' '1' '2' '0' '2' '4' '0' '9' '3' '0' '4' '5'
    (by decide) (by decide)

/-- Claim C1 (counterexample): a filename whose DDMMYYYYHHMMSS digit run is
contiguous - no underscore between the date half and the time half - is
rejected by `parse_time`: it returns the null pair, so the claim that both
forms are accepted is false. -/
theorem claim_C1_counterexample :
    parse_time "chain_01012024093045.csv" = none := by decide

/-! ### Claim C6 - loader error behaviour -/

theorem readFrames_unparsable :
    ∀ files : List UFile, (∀ f ∈ files, f.rows ≠ none) →
      (∀ f ∈ files, parse_time f.name = none) →
      ∃ l, readFrames files = .ok l ∧ ∀ r ∈ l, r.timestamp = none := by
  intro files
  induction files with
  | nil => intro _ _; exact ⟨[], rfl, by simp⟩
  | cons f fs ih =>
      intro hr hp
      obtain ⟨l, hl, hnone⟩ := ih (fun g hg => hr g (List.mem_cons_of_mem _ hg))
        (fun g hg => hp g (List.mem_cons_of_mem _ hg))
      rcases hf : f.rows with _ | rs
      · exact absurd hf (hr f (by simp))
      refine ⟨(rs.map fun p =>
          { payload := p
            timestamp := (parse_time f.name).map Prod.fst
            time_label := (parse_time f.name).map Prod.snd }) ++ l, ?_, ?_⟩
      · simp only [readFrames, hf, hl]
      · intro r hrm
        rcases List.mem_append.mp hrm with hm | hm
        · obtain ⟨p, _, hpe⟩ := List.mem_map.mp hm
          rw [← hpe]
          simp [hp f (by simp)]
        · exact hnone r hm

/-- Claim C6 (amended): the loader produces no explicit error value at all.
If every uploaded file is readable but no filename yields a timestamp -
so zero rows survive loading - `load` returns an ordinary empty dataset
(success, no error kind); an empty or unreadable file instead aborts the
script with an uncaught `read_csv` exception (see the counterexample). -/
theorem claim_C6 (files : List UFile)
    (hr : ∀ f ∈ files, f.rows ≠ none)
    (hp : ∀ f ∈ files, parse_time f.name = none) :
    loadFiles files = Except.ok [] := by
  obtain ⟨l, hl, hnone⟩ := readFrames_unparsable files hr hp
  have hfil : l.filter (fun r => r.timestamp.isSome) = [] := by
    rw [List.filter_eq_nil_iff]
    intro r hrm
    simp [hnone r hrm]
  rw [loadFiles, hl]
  simp only [hfil]
  rfl

/-- Witness for C6 at a single readable file with an unparsable name. -/
theorem claim_C6_witness :
    ((∀ f ∈ demoFiles, f.rows ≠ none) ∧ (∀ f ∈ demoFiles, parse_time f.name = none)) ∧
      loadFiles demoFiles = Except.ok [] :=
  ⟨⟨by decide, by decide⟩, claim_C6 demoFiles (by decide) (by decide)⟩

/-- Claim C6 (counterexample): on an empty uploaded file the loader does not
return an error value - `pd.read_csv` raises `EmptyDataError` and nothing
catches it, so the run aborts with an uncaught exception instead of the
claimed ordinary error return. -/
theorem claim_C6_counterexample :
    loadFiles [{ name := "chain_01012024_093045.csv", rows := none }]
      = Except.error "pandas.errors.EmptyDataError" := by
  rfl

/-! ### Claim C10 - frame effect of the delta pass -/

/-- Claim C10 (amended): when every row carries a strike value for the
processed side, the delta pass only re-orders rows and augments them with
the new delta columns: the multiset of original rows - every pre-existing
column value included - is preserved exactly.  (Rows whose strike cell is
missing are instead dropped, see the counterexample.) -/
theorem add_deltas_base_eq (g : List Row) :
    (add_deltas g).map RowD.base = sortBy rowLt g :=
  deltaRows_map_base none (sortBy rowLt g)

theorem claim_C10 (rows : List Row) (h : ∀ r ∈ rows, r.strike ≠ none) :
    ((computeDeltas rows).map RowD.base).Perm rows := by
  have h1 : (computeDeltas rows).map RowD.base
      = (strikeKeys rows).flatMap
          fun k => sortBy rowLt (rows.filter fun r => decide (r.strike = some k)) := by
    rw [computeDeltas, map_flatMap_eq]
    simp only [add_deltas_base_eq]
  have h2 : ((strikeKeys rows).flatMap
      fun k => sortBy rowLt (rows.filter fun r => decide (r.strike = some k))).Perm
        ((strikeKeys rows).flatMap fun k => rows.filter fun r => decide (r.strike = some k)) :=
    flatMap_perm_congr _ _ _ fun k _ => sortBy_perm _ _
  have h3 : ((strikeKeys rows).flatMap
      fun k => rows.filter fun r => decide (r.strike = some k)).Perm rows := by
    rw [List.perm_iff_count]
    intro a
    rcases ha : a.strike with _ | q
    · rw [count_flatMap_key_none Row.strike rows a ha]
      symm
      rw [List.count_eq_zero]
      intro hmem
      exact (h a hmem) ha
    · rw [count_flatMap_key_some Row.strike rows a q ha _ (strikeKeys_nodup rows)]
      by_cases hq : q ∈ strikeKeys rows
      · rw [if_pos hq]
      · rw [if_neg hq]
        symm
        rw [List.count_eq_zero]
        intro hmem
        exact hq (strikeKeys_mem rows a hmem q ha)
  rw [h1]
  exact h2.trans h3

/-- Witness for C10 at a concrete two-row, two-strike dataset. -/
theorem claim_C10_witness :
    ((computeDeltas rowsFull).map RowD.base).Perm rowsFull :=
  claim_C10 rowsFull (by decide)

/-- Claim C10 (counterexample): a row whose strike cell is missing (NaN) is
silently dropped by `groupby`, so the multiset of rows is not preserved. -/
theorem claim_C10_counterexample :
    ¬ ((computeDeltas rowsMixed).map RowD.base).Perm rowsMixed := by
  intro hperm
  have hlen := hperm.length_eq
  have h1 : (computeDeltas rowsMixed).length = 1 := by decide
  rw [List.length_map, h1] at hlen
  simp [rowsMixed] at hlen

/-! ### Claim C2 - the `or 0` guard does not stop NaN -/

/-- Claim C2 (code bug, failing input): with a single observation at the
strike, both correlations are undefined, i.e. NaN.  Python's `nan or 0`
evaluates to nan because NaN is truthy, so the weighted sum - and the stored
strength score - is NaN (`some none`), not a number with the undefined
correlations replaced by 0. -/
theorem claim_C2 : sideStrength true demoDRows 100 = some none := by
  rfl

/-! ### Claim C4 - one-sided strike rows still get a Bull/Bear bias -/

/-- Claim C4 (code bug, failing input): with only the CE side present (the PE
delta columns absent) and a single observation of strike 100, the result row
carries only a CE score (itself NaN here), yet the Bias lambda still labels
the row - `r.get` defaults the missing PE score to 0, the NaN comparison is
false, and the else-branch yields "Bear" instead of the claimed
"not applicable". -/
theorem claim_C4 : strengthBias true false true demoDRows [] 100 = "Bear" := by
  rfl

/-! ### Claim C5 - only three of the six metric pairs are correlated -/

theorem filterMap_proj_sublist (f : α → Option β) (p : β → γ) (q : α → γ)
    (hpf : ∀ a b, f a = some b → p b = q a) :
    ∀ l : List α, ((l.filterMap f).map p).Sublist (l.map q) := by
  intro l
  induction l with
  | nil => simp
  | cons a m ih =>
      rcases hfa : f a with _ | b
      · rw [List.filterMap_cons_none hfa, List.map_cons]
        exact ih.cons (q a)
      · rw [List.filterMap_cons_some hfa, List.map_cons, List.map_cons, hpf a b hfa]
        exact ih.cons₂ (q a)

/-- Claim C5 (amended): Panel C computes Pearson correlations only for the
three pairs (priceChange, volChange), (priceChange, oiChange) and
(priceChange, ivChange): every relation `summarize_side` emits concerns one
of those pairs, in that order - the pairs among volChange/oiChange/ivChange
are never computed. -/
theorem claim_C5 (rows : List CRow) (strike : ℚ) :
    ((summarize_side rows strike).map fun r => (r.a, r.b)).Sublist
      [("priceChange", "volChange"), ("priceChange", "oiChange"),
       ("priceChange", "ivChange")] := by
  rw [summarize_side]
  by_cases hd : (panelC_d rows strike).isEmpty
  · rw [if_pos hd]
    simp
  · rw [if_neg hd]
    refine filterMap_proj_sublist _ _ (fun pr => (pr.2.1, pr.2.2)) ?_ panelC_pairs
    intro pr b hb
    rw [panelC_rel] at hb
    rcases hp : pearson ((panelC_d rows strike).map
        fun r => (metricVal r pr.2.1, metricVal r pr.2.2)) with _ | v
    all_goals rw [hp] at hb
    · exact absurd hb (by simp)
    · simp only [Option.some.injEq] at hb
      rw [← hb]

/-- Claim C5 (counterexample): volChange and oiChange are two distinct
metrics of the four-metric correlation model, yet Panel C computes no
correlation for that unordered pair - the claim that every unordered pair is
computed is false. -/
theorem claim_C5_counterexample :
    "volChange" ∈ fourMetrics ∧ "oiChange" ∈ fourMetrics ∧
      "volChange" ≠ "oiChange" ∧ pairCovered "volChange" "oiChange" = false := by
  decide
